import Mathlib

/-!
Verification development for the BSE announcement proxy
(`src/api/announcements.py`).

The program is a single HTTP handler that resolves a target date,
paginates an upstream announcement feed over a two-endpoint chain,
enriches rows with a derived `pdf_url`, and returns a JSON envelope.

Shallow embedding conventions:
* A `Row` is an association list of string keys to string values, standing
  for the JSON object returned by the upstream (insertion-ordered, unique
  keys, as Python dicts are).  `Row.get` is `dict.get`, `Row.set` is
  `dict.__setitem__` (replace in place, or append when the key is new).
* The upstream (`requests` transport plus JSON parsing, i.e. `_fetch_page`)
  is an oracle `Nat → FetchResult`: the response to the n-th upstream
  request issued during one invocation of `_gather_for_date` (requests are
  strictly sequential, so the index determines the full history).
  `FetchResult.err` stands for any raised transport error, timeout, bad
  HTTP status, or unparseable body; `FetchResult.ok` carries the decoded
  JSON object, of which the code reads only the `Table` / `table` keys.
* Besides the row list, the embedded fetch also returns the trace of
  upstream requests as `(endpoint URL, pageno)` pairs, in issue order.
  The rest of the query payload (`strCat`, dates, …) is constant within a
  run and is not part of the trace.
* An HTTP response is modelled structurally: status code, the headers the
  handler explicitly sends (in order), and the JSON body before
  serialisation (`Body.errorBody msg` for `{"error": msg}`,
  `Body.envelope date count rows` for the success envelope).
* The only exceptions reachable inside the handler's outer `try` that are
  not already absorbed by `_gather_for_date` come from the runtime
  environment; they are modelled by an optional injected `fault` message
  which, when present, takes the 500 path.
-/

/-- A JSON object row, as an insertion-ordered association list. -/
abbrev Row := List (String × String)

/-- `dict.get`: first value bound to the key, if any. -/
def Row.get (r : Row) (k : String) : Option String :=
  (r.find? (fun p => p.1 = k)).map (fun p => p.2)

/-- Key-membership test for a row. -/
def Row.hasKey (r : Row) (k : String) : Bool :=
  r.any (fun p => p.1 = k)

/-- `dict.__setitem__`: replace the binding in place when the key exists,
else append it (Python dicts keep insertion order). -/
def Row.set (r : Row) (k v : String) : Row :=
  if Row.hasKey r k then r.map (fun p => if p.1 = k then (k, v) else p)
  else r ++ [(k, v)]

/-- The decoded JSON object of one upstream page, restricted to the keys
the code reads: `Table` and lowercase `table` (each absent, or a list of
rows). -/
structure PageData where
  Table : Option (List Row)
  table : Option (List Row)
deriving DecidableEq

/-- Outcome of one `_fetch_page` call: an exception (transport error,
timeout, bad status, unparseable body) or a decoded page. -/
inductive FetchResult where
  | err : FetchResult
  | ok : PageData → FetchResult
deriving DecidableEq

/-- `page_data.get("Table") or page_data.get("table") or []`: Python `or`
on list values, where `None` and `[]` are falsy. -/
def extractTable (pd : PageData) : List Row :=
  let a := pd.Table.getD []
  if a = [] then pd.table.getD [] else a

def BSE_PRIMARY_URL : String :=
  "https://api.bseindia.com/BseIndiaAPI/api/AnnSubCategoryGetData/w"

def BSE_FALLBACK_URL : String :=
  "https://api.bseindia.com/BseIndiaAPI/api/AnnGetData/w"

/-- `_attachment_url`: fixed base URL concatenated with the attachment
name, no encoding. -/
def _attachment_url (name : String) : String :=
  "https://www.bseindia.com/xml-data/corpfiling/AttachLive/" ++ name

/-- Python truthiness filter on an optional string: `None` and `""` are
falsy. -/
def truthy : Option String → Option String
  | some s => if s = "" then none else some s
  | none => none

/-- `item.get("ATTACHMENTNAME") or item.get("AttachmentName")`, kept only
when truthy (the code then guards with `if attach:`). -/
def attachOf (r : Row) : Option String :=
  match truthy (Row.get r "ATTACHMENTNAME") with
  | some s => some s
  | none => truthy (Row.get r "AttachmentName")

/-- Row enrichment inside the pagination loop: when a truthy attachment
name exists, `item["pdf_url"] = _attachment_url(attach)`. -/
def enrich (r : Row) : Row :=
  match attachOf r with
  | some a => Row.set r "pdf_url" (_attachment_url a)
  | none => r

/-- The pagination loop `for p in range(1, page_limit + 1)` of
`_gather_for_date`, for one endpoint.  Arguments: oracle, endpoint URL,
current page number `p`, remaining loop iterations `rem`, next oracle
index `idx`.  Returns the rows appended by this loop (already enriched,
page order then within-page order), the trace of requests it issued, the
next oracle index, and whether it aborted with an exception. -/
def pagesAux (o : Nat → FetchResult) (ep : String) :
    Nat → Nat → Nat → List Row × List (String × Nat) × Nat × Bool
  | _, 0, idx => ([], [], idx, false)
  | p, rem + 1, idx =>
    match o idx with
    | FetchResult.err => ([], [(ep, p)], idx + 1, true)
    | FetchResult.ok pd =>
      if extractTable pd = [] then ([], [(ep, p)], idx + 1, false)
      else
        let r := pagesAux o ep (p + 1) rem (idx + 1)
        ((extractTable pd).map enrich ++ r.1, (ep, p) :: r.2.1, r.2.2.1, r.2.2.2)

/-- One endpoint attempt of `_gather_for_date`'s `try` body: the probe of
page 1 (whose decoded content is ignored; only its success matters),
followed by the pagination loop over pages `1 .. page_limit`. -/
def attemptEndpoint (o : Nat → FetchResult) (ep : String) (page_limit idx : Nat) :
    List Row × List (String × Nat) × Nat × Bool :=
  match o idx with
  | FetchResult.err => ([], [(ep, 1)], idx + 1, true)
  | FetchResult.ok _ =>
    let r := pagesAux o ep 1 page_limit (idx + 1)
    (r.1, (ep, 1) :: r.2.1, r.2.2.1, r.2.2.2)

/-- `_gather_for_date`: walk the endpoint chain `[primary, fallback]`.
After a non-raising attempt, `if rows: break`; after an exception,
`continue`.  The accumulator `rows` is shared across attempts, so rows
appended before an exception survive into the next attempt.  Returns the
accumulated rows and the full upstream request trace.  (The
`date_yyyymmdd` argument only feeds the constant query payload, which the
trace omits.) -/
def _gather_for_date (date_yyyymmdd : String) (page_limit : Nat)
    (o : Nat → FetchResult) : List Row × List (String × Nat) :=
  let a1 := attemptEndpoint o BSE_PRIMARY_URL page_limit 0
  if a1.2.2.2 = false ∧ a1.1 ≠ [] then (a1.1, a1.2.1)
  else
    let a2 := attemptEndpoint o BSE_FALLBACK_URL page_limit a1.2.2.1
    (a1.1 ++ a2.1, a1.2.1 ++ a2.2.1)

/-! ## Calendar dates -/

/-- A calendar date, as held by `datetime.date`. -/
structure Date where
  year : Nat
  month : Nat
  day : Nat
deriving DecidableEq

/-- Gregorian leap-year rule used by `datetime`. -/
def isLeap (y : Nat) : Bool :=
  y % 4 = 0 ∧ (y % 100 ≠ 0 ∨ y % 400 = 0)

/-- Days in a month, as `datetime` validates them. -/
def daysInMonth (y m : Nat) : Nat :=
  if m = 2 then (if isLeap y then 29 else 28)
  else if m = 4 ∨ m = 6 ∨ m = 9 ∨ m = 11 then 30
  else 31

/-- The ten decimal digit characters with their values. -/
def digitTable : List (Char × Nat) :=
  [('0', 0), ('1', 1), ('2', 2), ('3', 3), ('4', 4),
   ('5', 5), ('6', 6), ('7', 7), ('8', 8), ('9', 9)]

/-- Value of a decimal digit character. -/
def digitVal (c : Char) : Option Nat :=
  (digitTable.find? (fun p => p.1 = c)).map (fun p => p.2)

/-- `datetime.date.fromisoformat`: exactly `YYYY-MM-DD`, all digits, and a
valid proleptic-Gregorian calendar date with year at least `MINYEAR = 1`
(four digits bound the year by `MAXYEAR = 9999` already); anything else
raises, which the handler maps to the 400 path. -/
def fromisoformat (s : String) : Option Date :=
  match s.data with
  | [y1, y2, y3, y4, h1, m1, m2, h2, d1, d2] =>
    if h1 = '-' ∧ h2 = '-' then
      match digitVal y1, digitVal y2, digitVal y3, digitVal y4,
            digitVal m1, digitVal m2, digitVal d1, digitVal d2 with
      | some a, some b, some c, some d, some e, some f, some g, some h =>
        let y := ((a * 10 + b) * 10 + c) * 10 + d
        let mo := e * 10 + f
        let dy := g * 10 + h
        if 1 ≤ y ∧ 1 ≤ mo ∧ mo ≤ 12 ∧ 1 ≤ dy ∧ dy ≤ daysInMonth y mo then
          some ⟨y, mo, dy⟩
        else none
      | _, _, _, _, _, _, _, _ => none
    else none
  | _ => none

/-- Two-digit zero-padded decimal rendering (month, day). -/
def pad2 (n : Nat) : List Char :=
  [Nat.digitChar (n / 10 % 10), Nat.digitChar (n % 10)]

/-- Four-digit zero-padded decimal rendering (year). -/
def pad4 (n : Nat) : List Char :=
  [Nat.digitChar (n / 1000 % 10), Nat.digitChar (n / 100 % 10),
   Nat.digitChar (n / 10 % 10), Nat.digitChar (n % 10)]

/-- `date.isoformat()`: `YYYY-MM-DD`. -/
def isoformat (dt : Date) : String :=
  String.mk (pad4 dt.year ++ '-' :: (pad2 dt.month ++ '-' :: pad2 dt.day))

/-- `_fmt_bse_date`: `strftime("%Y%m%d")`. -/
def _fmt_bse_date (dt : Date) : String :=
  String.mk (pad4 dt.year ++ pad2 dt.month ++ pad2 dt.day)

/-- The next calendar day (for the midnight rollover of the IST offset). -/
def nextDate (dt : Date) : Date :=
  if dt.day < daysInMonth dt.year dt.month then ⟨dt.year, dt.month, dt.day + 1⟩
  else if dt.month < 12 then ⟨dt.year, dt.month + 1, 1⟩
  else ⟨dt.year + 1, 1, 1⟩

/-- A UTC instant at minute granularity: the UTC calendar date plus the
minute of that day, as `datetime.datetime.utcnow()` yields it. -/
structure DateTime where
  date : Date
  minuteOfDay : Nat
  valid : minuteOfDay < 1440

/-- `_iso_today_india`: add `timedelta(hours=5, minutes=30)` to the
current UTC instant and keep the calendar-date portion (the offset is
under a day, so the date advances by at most one). -/
def _iso_today_india (now : DateTime) : Date :=
  if now.minuteOfDay + 330 < 1440 then now.date else nextDate now.date

/-! ## The request handler -/

/-- Python `int(s)` on a stripped decimal literal: an optional sign
followed by one or more digits. -/
def pyInt (s : String) : Option Int :=
  match s.data with
  | '-' :: rest => (digitsVal rest).map (fun n => -(n : Int))
  | '+' :: rest => (digitsVal rest).map (fun n => (n : Int))
  | l => (digitsVal l).map (fun n => (n : Int))
where
  digitsVal : List Char → Option Nat
    | [] => none
    | l => go l 0
  go : List Char → Nat → Option Nat
    | [], acc => some acc
    | c :: cs, acc =>
      match digitVal c with
      | some v => go cs (acc * 10 + v)
      | none => none

/-- The `limit_pages` resolution of `do_GET`: absent → 50; present →
`max(1, min(200, int(value)))`, with a silent fallback to 50 when `int`
raises. -/
def parseLimit : Option String → Nat
  | none => 50
  | some s =>
    match pyInt s with
    | none => 50
    | some n => (max 1 (min 200 n)).toNat

/-- A JSON response body, before serialisation: `{"error": msg}`, the
success envelope `{"date": _, "count": _, "rows": _}`, or no body. -/
inductive Body where
  | errorBody : String → Body
  | envelope : String → Nat → List Row → Body
  | empty : Body
deriving DecidableEq

/-- An HTTP response: status, the headers the handler sends (in order),
and the body. -/
structure Response where
  status : Nat
  headers : List (String × String)
  body : Body
deriving DecidableEq

/-- Handler outcome: the response plus the upstream request trace. -/
structure HResult where
  resp : Response
  trace : List (String × Nat)
deriving DecidableEq

def contentTypeHeader : String × String :=
  ("Content-Type", "application/json; charset=utf-8")

def corsOriginHeader : String × String :=
  ("Access-Control-Allow-Origin", "*")

def corsMethodsHeader : String × String :=
  ("Access-Control-Allow-Methods", "GET, OPTIONS")

def corsAllowHeader : String × String :=
  ("Access-Control-Allow-Headers", "Content-Type")

/-- The tail of `do_GET` after the date has been resolved: clamp
`limit_pages`, then either hit an injected runtime fault (the outer
`except` → 500, only Content-Type sent) or fetch and send the 200
envelope with the CORS headers. -/
def doGETfetch (dt : Date) (limitParam : Option String)
    (o : Nat → FetchResult) (fault : Option String) : HResult :=
  let page_limit := parseLimit limitParam
  match fault with
  | some msg => ⟨⟨500, [contentTypeHeader], Body.errorBody msg⟩, []⟩
  | none =>
    let res := _gather_for_date (_fmt_bse_date dt) page_limit o
    ⟨⟨200,
      [contentTypeHeader, corsOriginHeader, corsMethodsHeader, corsAllowHeader],
      Body.envelope (isoformat dt) res.1.length res.1⟩, res.2⟩

/-- `handler.do_GET`.  `dateParam` / `limitParam` are the first values of
the `date` / `limit_pages` query parameters (absent or blank → `none`,
as `parse_qs` drops blank values).  An unparseable date short-circuits to
the 400 response — with only the Content-Type header and before any
upstream request. -/
def do_GET (dateParam limitParam : Option String)
    (o : Nat → FetchResult) (now : DateTime) (fault : Option String) : HResult :=
  match dateParam with
  | some s =>
    match fromisoformat s with
    | some dt => doGETfetch dt limitParam o fault
    | none =>
      ⟨⟨400, [contentTypeHeader], Body.errorBody "Invalid date. Use YYYY-MM-DD."⟩, []⟩
  | none => doGETfetch (_iso_today_india now) limitParam o fault

/-- `handler.do_OPTIONS`: 204 with the CORS headers and no body. -/
def do_OPTIONS : Response :=
  ⟨204, [corsOriginHeader, corsMethodsHeader, corsAllowHeader], Body.empty⟩

/-! ## Concrete upstream behaviours used to instantiate the theorems -/

/-- An upstream that fails every request (both endpoints down). -/
def oracleDown : Nat → FetchResult := fun _ => FetchResult.err

/-- A fixed UTC instant: 2024-05-06, 10:00 UTC. -/
def someNow : DateTime := ⟨⟨2024, 5, 6⟩, 600, by decide⟩

/-- An upstream behaviour on which the primary endpoint yields a row on
page 1 and then raises on page 2, after which the fallback endpoint
yields a row: request 0 is the primary probe, 1–2 the primary pages,
3 the fallback probe, 4–5 the fallback pages. -/
def oracleMerge : Nat → FetchResult
  | 0 => FetchResult.ok ⟨some [[("SRC", "primary")]], none⟩
  | 1 => FetchResult.ok ⟨some [[("SRC", "primary")]], none⟩
  | 2 => FetchResult.err
  | 3 => FetchResult.ok ⟨some [[("SRC", "fallback")]], none⟩
  | 4 => FetchResult.ok ⟨some [[("SRC", "fallback")]], none⟩
  | _ => FetchResult.ok ⟨some [], none⟩

/-- An upstream behaviour with one row on page 1 of the primary endpoint
and an empty page 2. -/
def oracleOnePage : Nat → FetchResult
  | 0 => FetchResult.ok ⟨some [[("K", "V")]], none⟩
  | 1 => FetchResult.ok ⟨some [[("K", "V")]], none⟩
  | _ => FetchResult.ok ⟨some [], none⟩

/-- Same upstream shape as `oracleOnePage`, kept separate for the
pagination-trace refutation. -/
def oracleProbeDup : Nat → FetchResult
  | 0 => FetchResult.ok ⟨some [[("K", "V")]], none⟩
  | 1 => FetchResult.ok ⟨some [[("K", "V")]], none⟩
  | _ => FetchResult.ok ⟨some [], none⟩

/-- An upstream behaviour whose only row already carries a `pdf_url`
key and no attachment-name field. -/
def oraclePdfPassthrough : Nat → FetchResult
  | 0 => FetchResult.ok ⟨some [[("pdf_url", "preexisting")]], none⟩
  | 1 => FetchResult.ok ⟨some [[("pdf_url", "preexisting")]], none⟩
  | _ => FetchResult.ok ⟨some [], none⟩

/-! ## Helper lemmas -/

theorem Row.get_set (r : Row) (k v : String) : Row.get (Row.set r k v) k = some v := by
  unfold Row.set Row.hasKey
  by_cases h : r.any (fun p => p.1 = k) = true
  · rw [if_pos h]
    induction r with
    | nil => simp at h
    | cons hd tl ih =>
      simp only [List.any_cons, Bool.or_eq_true, decide_eq_true_eq] at h
      by_cases hk : hd.1 = k
      · simp [Row.get, List.find?, hk]
      · simp only [List.map_cons, if_neg hk]
        rw [Row.get] at ih ⊢
        rw [List.find?_cons_of_neg _ (by simpa using hk)]
        exact ih (h.resolve_left hk)
  · rw [if_neg h]
    rw [Row.get, List.find?_append]
    have hnone : r.find? (fun p => p.1 = k) = none := by
      rw [List.find?_eq_none]
      intro x hx
      simp only [Bool.not_eq_true, decide_eq_false_iff_not]
      intro hxk
      exact h (List.any_eq_true.mpr ⟨x, hx, by simpa using hxk⟩)
    simp [hnone, List.find?]

theorem pagesAux_spec (o : Nat → FetchResult) (ep : String) :
    ∀ rem p idx,
      (pagesAux o ep p rem idx).2.2.1 = idx + (pagesAux o ep p rem idx).2.1.length ∧
      (pagesAux o ep p rem idx).2.1.length ≤ rem ∧
      (pagesAux o ep p rem idx).2.1 =
        (List.range' p (pagesAux o ep p rem idx).2.1.length).map (fun q => (ep, q)) ∧
      (∀ k, k + 1 < (pagesAux o ep p rem idx).2.1.length →
        ∃ pd, o (idx + k) = FetchResult.ok pd ∧ extractTable pd ≠ []) := by
  intro rem
  induction rem with
  | zero =>
    intro p idx
    simp [pagesAux]
  | succ rem ih =>
    intro p idx
    cases ho : o idx with
    | err =>
      simp [pagesAux, ho, List.range']
    | ok pd =>
      by_cases he : extractTable pd = []
      · simp [pagesAux, ho, he, List.range']
      · obtain ⟨h1, h2, h3, h4⟩ := ih (p + 1) (idx + 1)
        simp only [pagesAux, ho, if_neg he]
        refine ⟨?_, ?_, ?_, ?_⟩
        · simpa [Nat.add_comm, Nat.add_assoc, Nat.add_left_comm] using h1
        · simpa using Nat.succ_le_succ h2
        · simp only [List.length_cons, List.range'_succ, List.map_cons]
          exact congrArg _ h3
        · intro k hk
          match k with
          | 0 => exact ⟨pd, by simpa using ho, he⟩
          | k' + 1 =>
            obtain ⟨pd', hpd', hne⟩ := h4 k' (by simpa using hk)
            exact ⟨pd', by rw [show idx + (k' + 1) = idx + 1 + k' by omega]; exact hpd', hne⟩

theorem attemptEndpoint_spec (o : Nat → FetchResult) (ep : String) (limit idx : Nat) :
    (attemptEndpoint o ep limit idx).2.2.1 =
      idx + (attemptEndpoint o ep limit idx).2.1.length ∧
    1 ≤ (attemptEndpoint o ep limit idx).2.1.length ∧
    (∃ k, k ≤ limit ∧ (attemptEndpoint o ep limit idx).2.1 =
      (ep, 1) :: (List.range' 1 k).map (fun q => (ep, q))) ∧
    (∀ k, 1 ≤ k → k + 1 < (attemptEndpoint o ep limit idx).2.1.length →
      ∃ pd, o (idx + k) = FetchResult.ok pd ∧ extractTable pd ≠ []) := by
  cases ho : o idx with
  | err =>
    refine ⟨by simp [attemptEndpoint, ho], by simp [attemptEndpoint, ho],
      ⟨0, Nat.zero_le _, by simp [attemptEndpoint, ho, List.range']⟩, ?_⟩
    intro k hk1 hk2
    simp only [attemptEndpoint, ho, List.length_cons, List.length_nil] at hk2
    omega
  | ok pd =>
    obtain ⟨h1, h2, h3, h4⟩ := pagesAux_spec o ep limit 1 (idx + 1)
    refine ⟨?_, ?_, ?_, ?_⟩
    · simp only [attemptEndpoint, ho]
      simpa [Nat.add_comm, Nat.add_assoc, Nat.add_left_comm] using h1
    · simp [attemptEndpoint, ho]
    · refine ⟨(pagesAux o ep 1 limit (idx + 1)).2.1.length, h2, ?_⟩
      simp only [attemptEndpoint, ho]
      exact congrArg _ h3
    · intro k hk1 hk2
      simp only [attemptEndpoint, ho, List.length_cons] at hk2
      obtain ⟨pd', hpd', hne⟩ := h4 (k - 1) (by omega)
      exact ⟨pd', by rw [show idx + k = idx + 1 + (k - 1) by omega]; exact hpd', hne⟩

theorem attempt_entry_fst (o : Nat → FetchResult) (ep : String) (limit idx j : Nat)
    (x : String × Nat) (h : (attemptEndpoint o ep limit idx).2.1[j]? = some x) :
    x.1 = ep := by
  obtain ⟨k, _, htr⟩ := (attemptEndpoint_spec o ep limit idx).2.2.1
  rw [htr] at h
  have hx := List.getElem?_mem h
  rcases List.mem_cons.mp hx with h0 | h1
  · rw [h0]
  · obtain ⟨q, _, rfl⟩ := List.mem_map.mp h1
    rfl

theorem attempt_block_stop (o : Nat → FetchResult) (ep : String) (limit idx k : Nat)
    (pd : PageData) (hk1 : 1 ≤ k) (hk2 : k < (attemptEndpoint o ep limit idx).2.1.length)
    (hres : o (idx + k) = FetchResult.ok pd) (hempty : extractTable pd = []) :
    k = (attemptEndpoint o ep limit idx).2.1.length - 1 := by
  by_contra hne
  have hlt : k + 1 < (attemptEndpoint o ep limit idx).2.1.length := by omega
  obtain ⟨pd', hpd', hnonempty⟩ := (attemptEndpoint_spec o ep limit idx).2.2.2 k hk1 hlt
  rw [hres] at hpd'
  cases hpd'
  exact hnonempty hempty

theorem gather_trace_cases (d : String) (limit : Nat) (o : Nat → FetchResult) :
    (_gather_for_date d limit o).2 = (attemptEndpoint o BSE_PRIMARY_URL limit 0).2.1 ∨
    (_gather_for_date d limit o).2 =
      (attemptEndpoint o BSE_PRIMARY_URL limit 0).2.1 ++
      (attemptEndpoint o BSE_FALLBACK_URL limit
        (attemptEndpoint o BSE_PRIMARY_URL limit 0).2.2.1).2.1 := by
  unfold _gather_for_date
  by_cases h : (attemptEndpoint o BSE_PRIMARY_URL limit 0).2.2.2 = false ∧
      (attemptEndpoint o BSE_PRIMARY_URL limit 0).1 ≠ []
  · left; simp [h]
  · right; simp [h]

theorem digitVal_spec (c : Char) (v : Nat) (h : digitVal c = some v) :
    v < 10 ∧ Nat.digitChar v = c := by
  unfold digitVal at h
  cases hf : List.find? (fun p => p.1 = c) digitTable with
  | none => rw [hf] at h; cases h
  | some pr =>
    rw [hf] at h
    have hp := List.find?_some hf
    have hmem := List.mem_of_find?_eq_some hf
    simp only [Option.map_some'] at h
    injection h with h
    subst h
    simp only [decide_eq_true_eq] at hp
    subst hp
    unfold digitTable at hmem
    fin_cases hmem <;> decide

theorem isoformat_fromisoformat (s : String) (dt : Date)
    (h : fromisoformat s = some dt) : isoformat dt = s := by
  obtain ⟨data⟩ := s
  unfold fromisoformat at h
  split at h
  case _ =>
    rename_i y1 y2 y3 y4 h1 m1 m2 h2 d1 d2 heq
    split at h
    case isTrue hdash =>
      split at h
      case _ =>
        rename_i a b c d e f g hh hda hdb hdc hdd hde hdf hdg hdh
        dsimp only at h
        split at h
        case isTrue hvalid =>
          injection h with h
          subst h
          obtain ⟨ha1, ha2⟩ := digitVal_spec _ _ hda
          obtain ⟨hb1, hb2⟩ := digitVal_spec _ _ hdb
          obtain ⟨hc1, hc2⟩ := digitVal_spec _ _ hdc
          obtain ⟨hd1, hd2⟩ := digitVal_spec _ _ hdd
          obtain ⟨he1, he2⟩ := digitVal_spec _ _ hde
          obtain ⟨hf1, hf2⟩ := digitVal_spec _ _ hdf
          obtain ⟨hg1, hg2⟩ := digitVal_spec _ _ hdg
          obtain ⟨hh1, hh2⟩ := digitVal_spec _ _ hdh
          have hdata : data = [y1, y2, y3, y4, h1, m1, m2, h2, d1, d2] := heq
          subst hdata
          obtain ⟨hd1', hd2'⟩ := hdash
          subst hd1'
          subst hd2'
          unfold isoformat pad4 pad2
          apply congrArg
          have e1 : (((a * 10 + b) * 10 + c) * 10 + d) / 1000 % 10 = a := by omega
          have e2 : (((a * 10 + b) * 10 + c) * 10 + d) / 100 % 10 = b := by omega
          have e3 : (((a * 10 + b) * 10 + c) * 10 + d) / 10 % 10 = c := by omega
          have e4 : (((a * 10 + b) * 10 + c) * 10 + d) % 10 = d := by omega
          have e5 : (e * 10 + f) / 10 % 10 = e := by omega
          have e6 : (e * 10 + f) % 10 = f := by omega
          have e7 : (g * 10 + hh) / 10 % 10 = g := by omega
          have e8 : (g * 10 + hh) % 10 = hh := by omega
          simp only [e1, e2, e3, e4, e5, e6, e7, e8, ha2, hb2, hc2, hd2, he2, hf2, hg2, hh2]
          rfl
        case isFalse => exact absurd h (by simp)
      case _ => exact absurd h (by simp)
    case isFalse => exact absurd h (by simp)
  case _ => exact absurd h (by simp)

/-! ## Claims -/

/-- Claim C1 (code bug): on the upstream behaviour `oracleMerge` — primary
page 1 yields a row, page 2 raises, then the fallback yields a row — the
returned row list combines rows obtained from both endpoints, because the
shared `rows` accumulator is not reset when an endpoint is abandoned
mid-pagination.  The trace shows both endpoints were queried and each
contributed its row. -/
theorem rows_merged_across_endpoints :
    (_gather_for_date "20240101" 50 oracleMerge).1 =
      [[("SRC", "primary")], [("SRC", "fallback")]] ∧
    (_gather_for_date "20240101" 50 oracleMerge).2 =
      [(BSE_PRIMARY_URL, 1), (BSE_PRIMARY_URL, 1), (BSE_PRIMARY_URL, 2),
       (BSE_FALLBACK_URL, 1), (BSE_FALLBACK_URL, 1), (BSE_FALLBACK_URL, 2)] :=
  ⟨rfl, rfl⟩

/-- Claim C2, counterexample: the invalid-date 400 response carries only
the Content-Type header — none of the CORS headers. -/
theorem cors_missing_on_400 :
    (do_GET (some "not-a-date") none oracleDown someNow none).resp.status = 400 ∧
    corsOriginHeader ∉ (do_GET (some "not-a-date") none oracleDown someNow none).resp.headers := by
  exact ⟨rfl, by decide⟩

/-- Claim C2 as amended: only the 200 success response (and the OPTIONS
204 preflight) carry the permissive CORS headers; the 400 invalid-date
response and the 500 internal-error response send only Content-Type. -/
theorem cors_headers_by_path :
    (∀ dp lp o now fault,
      (do_GET dp lp o now fault).resp.status = 200 →
        corsOriginHeader ∈ (do_GET dp lp o now fault).resp.headers ∧
        corsMethodsHeader ∈ (do_GET dp lp o now fault).resp.headers ∧
        corsAllowHeader ∈ (do_GET dp lp o now fault).resp.headers) ∧
    (∀ s lp o now fault, fromisoformat s = none →
      (do_GET (some s) lp o now fault).resp.headers = [contentTypeHeader]) ∧
    (∀ dt lp o msg, (doGETfetch dt lp o (some msg)).resp.headers = [contentTypeHeader]) ∧
    (corsOriginHeader ∈ do_OPTIONS.headers ∧ corsMethodsHeader ∈ do_OPTIONS.headers ∧
      corsAllowHeader ∈ do_OPTIONS.headers) := by
  refine ⟨?_, ?_, ?_, by decide⟩
  · intro dp lp o now fault h
    cases dp with
    | none =>
      cases fault with
      | none => refine ⟨by simp [do_GET, doGETfetch], by simp [do_GET, doGETfetch],
          by simp [do_GET, doGETfetch]⟩
      | some msg => simp [do_GET, doGETfetch] at h
    | some s =>
      cases hfs : fromisoformat s with
      | none => simp [do_GET, hfs] at h
      | some dt =>
        cases fault with
        | none => refine ⟨by simp [do_GET, hfs, doGETfetch], by simp [do_GET, hfs, doGETfetch],
            by simp [do_GET, hfs, doGETfetch]⟩
        | some msg => simp [do_GET, hfs, doGETfetch] at h
  · intro s lp o now fault h
    simp [do_GET, h]
  · intro dt lp o msg
    rfl

theorem cors_headers_by_path_witness :
    corsOriginHeader ∈ (do_GET (some "2024-01-02") none oracleDown someNow none).resp.headers ∧
    corsMethodsHeader ∈ (do_GET (some "2024-01-02") none oracleDown someNow none).resp.headers ∧
    corsAllowHeader ∈ (do_GET (some "2024-01-02") none oracleDown someNow none).resp.headers :=
  cors_headers_by_path.1 (some "2024-01-02") none oracleDown someNow none rfl

/-- Claim C3: a supplied `date` that `date.fromisoformat` rejects — bad
syntax or an invalid calendar date — yields exactly the 400 response with
body `{"error": "Invalid date. Use YYYY-MM-DD."}` and an empty upstream
trace (no fetch is performed). -/
theorem invalid_date_400_no_fetch (s : String) (lp : Option String)
    (o : Nat → FetchResult) (now : DateTime) (fault : Option String)
    (h : fromisoformat s = none) :
    do_GET (some s) lp o now fault =
      ⟨⟨400, [contentTypeHeader], Body.errorBody "Invalid date. Use YYYY-MM-DD."⟩, []⟩ := by
  simp [do_GET, h]

theorem invalid_date_400_no_fetch_witness :
    fromisoformat "2024-02-30" = none ∧
    do_GET (some "2024-02-30") none oracleDown someNow none =
      ⟨⟨400, [contentTypeHeader], Body.errorBody "Invalid date. Use YYYY-MM-DD."⟩, []⟩ :=
  ⟨by decide, invalid_date_400_no_fetch "2024-02-30" none oracleDown someNow none (by decide)⟩

/-- Claim C4: the effective page limit is `max(1, min(200, n))` when
`limit_pages` parses as the integer `n`, silently 50 when it does not
parse, and 50 when absent; in particular `0 ↦ 1`, `9999 ↦ 200`,
`abc ↦ 50`, and a non-integer `limit_pages` still produces a 200
response rather than an error. -/
theorem limit_pages_clamping :
    (∀ s n, pyInt s = some n → parseLimit (some s) = (max 1 (min 200 n)).toNat) ∧
    (∀ s, pyInt s = none → parseLimit (some s) = 50) ∧
    parseLimit none = 50 ∧
    parseLimit (some "0") = 1 ∧ parseLimit (some "9999") = 200 ∧
    parseLimit (some "abc") = 50 ∧
    (∀ lp o now, (do_GET (some "2024-01-02") (some lp) o now none).resp.status = 200) := by
  refine ⟨?_, ?_, rfl, by decide, by decide, by decide, ?_⟩
  · intro s n h
    simp [parseLimit, h]
  · intro s h
    simp [parseLimit, h]
  · intro lp o now
    rfl

theorem limit_pages_clamping_witness :
    parseLimit (some "7") = (max 1 (min 200 (7 : Int))).toNat :=
  limit_pages_clamping.1 "7" 7 (by decide)

/-- Claim C5, counterexample: an upstream row that has no attachment-name
field but already carries a `pdf_url` key passes through unchanged, so
the output row has a `pdf_url` key even though the upstream row has no
attachment field. -/
theorem passthrough_pdf_url_key :
    Row.get [("pdf_url", "preexisting")] "ATTACHMENTNAME" = none ∧
    Row.get [("pdf_url", "preexisting")] "AttachmentName" = none ∧
    (_gather_for_date "20240101" 50 oraclePdfPassthrough).1 = [[("pdf_url", "preexisting")]] ∧
    Row.hasKey [("pdf_url", "preexisting")] "pdf_url" = true :=
  ⟨by decide, by decide, rfl, by decide⟩

/-- Claim C5 as amended: a row with a truthy attachment-name field
(`ATTACHMENTNAME`, else `AttachmentName`) gets `pdf_url` set to the fixed
base URL concatenated with the name, with no encoding; a row with no
truthy attachment-name field is passed through unchanged, so it has a
`pdf_url` key only if the upstream row already carried one. -/
theorem pdf_url_enrichment (r : Row) :
    (∀ a, attachOf r = some a →
      Row.get (enrich r) "pdf_url" = some (_attachment_url a)) ∧
    (attachOf r = none → Row.hasKey r "pdf_url" = false →
      Row.hasKey (enrich r) "pdf_url" = false) := by
  constructor
  · intro a ha
    unfold enrich
    rw [ha]
    exact Row.get_set r "pdf_url" (_attachment_url a)
  · intro ha hk
    unfold enrich
    rw [ha]
    exact hk

theorem pdf_url_enrichment_witness :
    attachOf [("AttachmentName", "123.pdf")] = some "123.pdf" ∧
    Row.get (enrich [("AttachmentName", "123.pdf")]) "pdf_url" =
      some (_attachment_url "123.pdf") :=
  ⟨by decide, (pdf_url_enrichment [("AttachmentName", "123.pdf")]).1 "123.pdf" (by decide)⟩

/-- Claim C6: in the full upstream request trace of `_gather_for_date`,
whenever a request to endpoint `ep` that is not that endpoint's initial
probe (i.e. some earlier trace entry already targets `ep`) is answered
with a decoded page whose `Table`/`table` extraction is empty, no later
request to `ep` appears in the trace at all — in particular no page with
a higher page number is ever requested from that endpoint.  (The probe's
decoded content is ignored by the code; the spec's stop condition speaks
of the pagination pages, which are exactly the non-probe requests.)
Response alignment: the `k`-th trace entry is answered by `o k`. -/
theorem pagination_stops_at_empty_table (o : Nat → FetchResult) (dstr : String)
    (limit k j p q : Nat) (ep : String) (pd : PageData)
    (hk : (_gather_for_date dstr limit o).2[k]? = some (ep, p))
    (hprev : ∃ k' p', k' < k ∧ (_gather_for_date dstr limit o).2[k']? = some (ep, p'))
    (hres : o k = FetchResult.ok pd)
    (hempty : extractTable pd = [])
    (hj : k < j) :
    (_gather_for_date dstr limit o).2[j]? ≠ some (ep, q) := by
  intro hjq
  obtain ⟨k', p', hk'k, hk'⟩ := hprev
  have hk1 : 1 ≤ k := by omega
  have hPF : BSE_PRIMARY_URL ≠ BSE_FALLBACK_URL := by decide
  rcases gather_trace_cases dstr limit o with hcase | hcase
  · rw [hcase] at hk hjq
    have hep : ep = BSE_PRIMARY_URL := attempt_entry_fst o BSE_PRIMARY_URL limit 0 k (ep, p) hk
    have hklen := (List.getElem?_eq_some.mp hk).1
    have hstop := attempt_block_stop o BSE_PRIMARY_URL limit 0 k pd hk1 hklen
      (by simpa using hres) hempty
    have hjlen := (List.getElem?_eq_some.mp hjq).1
    omega
  · have hidx2 : (attemptEndpoint o BSE_PRIMARY_URL limit 0).2.2.1 =
        (attemptEndpoint o BSE_PRIMARY_URL limit 0).2.1.length := by
      simpa using (attemptEndpoint_spec o BSE_PRIMARY_URL limit 0).1
    rw [hidx2] at hcase
    rw [hcase] at hk hjq hk'
    have hlen1 : 1 ≤ (attemptEndpoint o BSE_PRIMARY_URL limit 0).2.1.length :=
      (attemptEndpoint_spec o BSE_PRIMARY_URL limit 0).2.1
    have hlen2 : 1 ≤ (attemptEndpoint o BSE_FALLBACK_URL limit
        (attemptEndpoint o BSE_PRIMARY_URL limit 0).2.1.length).2.1.length :=
      (attemptEndpoint_spec o BSE_FALLBACK_URL limit _).2.1
    rcases Nat.lt_or_ge k (attemptEndpoint o BSE_PRIMARY_URL limit 0).2.1.length with hkP | hkF
    · -- the empty-table response belongs to the primary block
      rw [List.getElem?_append_left hkP] at hk
      have hep : ep = BSE_PRIMARY_URL := attempt_entry_fst o BSE_PRIMARY_URL limit 0 k (ep, p) hk
      have hstop := attempt_block_stop o BSE_PRIMARY_URL limit 0 k pd hk1 hkP
        (by simpa using hres) hempty
      rcases Nat.lt_or_ge j (attemptEndpoint o BSE_PRIMARY_URL limit 0).2.1.length with hjP | hjF
      · omega
      · rw [List.getElem?_append_right hjF] at hjq
        have : ep = BSE_FALLBACK_URL :=
          attempt_entry_fst o BSE_FALLBACK_URL limit _ _ (ep, q) hjq
        rw [hep] at this
        exact hPF this
    · -- the empty-table response belongs to the fallback block
      rw [List.getElem?_append_right hkF] at hk
      have hep : ep = BSE_FALLBACK_URL :=
        attempt_entry_fst o BSE_FALLBACK_URL limit _ _ (ep, p) hk
      -- the earlier same-endpoint request is also in the fallback block
      have hk'F : (attemptEndpoint o BSE_PRIMARY_URL limit 0).2.1.length ≤ k' := by
        by_contra hlt
        push_neg at hlt
        rw [List.getElem?_append_left hlt] at hk'
        have : ep = BSE_PRIMARY_URL := attempt_entry_fst o BSE_PRIMARY_URL limit 0 k' (ep, p') hk'
        rw [hep] at this
        exact hPF this.symm
      have hr1 : 1 ≤ k - (attemptEndpoint o BSE_PRIMARY_URL limit 0).2.1.length := by omega
      have hklen := (List.getElem?_eq_some.mp hk).1
      have hstop := attempt_block_stop o BSE_FALLBACK_URL limit
        (attemptEndpoint o BSE_PRIMARY_URL limit 0).2.1.length
        (k - (attemptEndpoint o BSE_PRIMARY_URL limit 0).2.1.length) pd hr1 hklen
        (by rw [show (attemptEndpoint o BSE_PRIMARY_URL limit 0).2.1.length +
              (k - (attemptEndpoint o BSE_PRIMARY_URL limit 0).2.1.length) = k by omega]
            exact hres) hempty
      have hjtot := (List.getElem?_eq_some.mp hjq).1
      rw [List.length_append] at hjtot
      omega

theorem pagination_stops_at_empty_table_witness :
    (_gather_for_date "20240101" 50 oracleOnePage).2[3]? ≠ some (BSE_PRIMARY_URL, 9) :=
  pagination_stops_at_empty_table oracleOnePage "20240101" 50 2 3 2 9 BSE_PRIMARY_URL
    ⟨some [], none⟩ (by decide) ⟨1, 1, by decide, by decide⟩ (by decide) (by decide)
    (by decide)

/-- Claim C7: whenever the fetch accumulates zero rows — whatever mix of
empty pages, transport errors, timeouts, or unparseable responses the two
endpoints produced — a request with a valid (or absent) `date` and no
internal fault still gets HTTP 200 with `count 0` and an empty row list. -/
theorem empty_fetch_still_200 (dp lp : Option String) (o : Nat → FetchResult)
    (now : DateTime)
    (hdp : dp = none ∨ ∃ s dt, dp = some s ∧ fromisoformat s = some dt)
    (hrows : ∀ dstr, (_gather_for_date dstr (parseLimit lp) o).1 = []) :
    (do_GET dp lp o now none).resp.status = 200 ∧
    ∃ d, (do_GET dp lp o now none).resp.body = Body.envelope d 0 [] := by
  have key : ∀ dt : Date, (doGETfetch dt lp o none).resp.status = 200 ∧
      ∃ d, (doGETfetch dt lp o none).resp.body = Body.envelope d 0 [] := by
    intro dt
    have h := hrows (_fmt_bse_date dt)
    exact ⟨rfl, ⟨isoformat dt, by simp [doGETfetch, h]⟩⟩
  rcases hdp with rfl | ⟨s, dt, rfl, hs⟩
  · exact key _
  · simpa [do_GET, hs] using key dt

theorem empty_fetch_still_200_witness :
    (do_GET none none oracleDown someNow none).resp.status = 200 ∧
    ∃ d, (do_GET none none oracleDown someNow none).resp.body = Body.envelope d 0 [] :=
  empty_fetch_still_200 none none oracleDown someNow (Or.inl rfl) (fun _ => rfl)

/-- Claim C8: when a valid `date=YYYY-MM-DD` is supplied, the success
envelope's `date` field is exactly the input string (the code re-renders
the parsed date with `isoformat`, which round-trips); when `date` is
absent, it is the rendering of the calendar date obtained by adding 5
hours 30 minutes to the current UTC instant and keeping the date portion
(`_iso_today_india`). -/
theorem response_date_field :
    (∀ s dt lp o now, fromisoformat s = some dt →
      ∃ c rows, (do_GET (some s) lp o now none).resp.body = Body.envelope s c rows) ∧
    (∀ lp o now, ∃ c rows, (do_GET none lp o now none).resp.body =
      Body.envelope (isoformat (_iso_today_india now)) c rows) := by
  constructor
  · intro s dt lp o now h
    have hiso := isoformat_fromisoformat s dt h
    refine ⟨(_gather_for_date (_fmt_bse_date dt) (parseLimit lp) o).1.length,
      (_gather_for_date (_fmt_bse_date dt) (parseLimit lp) o).1, ?_⟩
    simp [do_GET, h, doGETfetch, hiso]
  · intro lp o now
    exact ⟨_, _, rfl⟩

theorem response_date_field_witness :
    ∃ c rows, (do_GET (some "2024-02-29") none oracleDown someNow none).resp.body =
      Body.envelope "2024-02-29" c rows :=
  response_date_field.1 "2024-02-29" ⟨2024, 2, 29⟩ none oracleDown someNow (by decide)

/-- Claim C9, counterexample: with a live endpoint the code requests page
1 twice — once as the probe and once as the first loop page — so the
request trace is not duplicate-free and consecutive requests do not
always increase the page number by one. -/
theorem probe_duplicates_page_one :
    (_gather_for_date "20240101" 50 oracleProbeDup).2 =
      [(BSE_PRIMARY_URL, 1), (BSE_PRIMARY_URL, 1), (BSE_PRIMARY_URL, 2)] ∧
    ¬ (_gather_for_date "20240101" 50 oracleProbeDup).2.Nodup :=
  ⟨rfl, by decide⟩

/-- Claim C9 as amended: for an endpoint attempt, the issued requests are
a probe of page 1 followed by sequential loop pages `1, 2, …, k` for some
`k ≤ limit_pages` (so page 1 is requested twice when the probe succeeds,
every other page at most once, and consecutive loop requests increase the
page number by exactly one). -/
theorem pages_probe_then_sequential (o : Nat → FetchResult) (ep : String)
    (page_limit idx : Nat) :
    ∃ k, k ≤ page_limit ∧ (attemptEndpoint o ep page_limit idx).2.1 =
      (ep, 1) :: (List.range' 1 k).map (fun q => (ep, q)) :=
  (attemptEndpoint_spec o ep page_limit idx).2.2.1

/-- Claim C10: every success envelope the handler produces has its
`count` field equal to the length of its `rows` list. -/
theorem count_matches_rows (dp lp : Option String) (o : Nat → FetchResult)
    (now : DateTime) (fault : Option String) (d : String) (c : Nat) (rs : List Row)
    (h : (do_GET dp lp o now fault).resp.body = Body.envelope d c rs) :
    c = rs.length := by
  have key : ∀ dt : Date, (doGETfetch dt lp o fault).resp.body = Body.envelope d c rs →
      c = rs.length := by
    intro dt hb
    unfold doGETfetch at hb
    cases fault with
    | some msg => simp at hb
    | none =>
      simp only [Body.envelope.injEq] at hb
      obtain ⟨-, h2, h3⟩ := hb
      rw [← h2, ← h3]
  cases dp with
  | none => exact key _ h
  | some s =>
    cases hfs : fromisoformat s with
    | none => rw [do_GET, hfs] at h; simp at h
    | some dt =>
      rw [do_GET, hfs] at h
      exact key dt h

theorem count_matches_rows_witness :
    (do_GET none none oracleDown someNow none).resp.body =
      Body.envelope "2024-05-06" 0 [] ∧ (0 : Nat) = ([] : List Row).length :=
  ⟨by decide, count_matches_rows none none oracleDown someNow none "2024-05-06" 0 []
    (by decide)⟩
